import Mathlib

/-!
# Verification of the mcp-image-downloader batch pipeline

A shallow embedding of the concurrent batch-download pipeline of
`mcp-image-downloader` (src/downloader.js, src/processor.js,
src/utils/progressTracker.js, src/utils/validator.js, src/index.js) and
proofs about it.

Modelling conventions:
* Timestamps (`Date.now()`) are explicit `Int` parameters threaded through
  the functions that read the clock.
* JavaScript numbers are modelled as `Int` where the code only ever holds
  integers (counters, byte counts, capacities) and as `Rat` where the code
  divides (speeds, percentages, ETA).
* `throw`/`catch` is modelled with `Except String`; a JS function that never
  throws is a total Lean function.
* Absent (`undefined`) arguments and fields are `Option`; a JS destructuring
  default `{ x = d }` becomes `Option.getD` (it fires only on `undefined`).
* I/O performed by external collaborators (axios, fs, sharp metadata, the
  WHATWG `URL` parser) is an oracle supplied as an explicit argument, so
  every network/disk outcome is quantified over.
-/

namespace ImageDownloader

/-! ## Semaphore (src/downloader.js, class Semaphore)

The source:
```js
class Semaphore {
  constructor(max) { this.max = max; this.current = 0; this.queue = []; }
  async acquire() {
    if (this.current < this.max) { this.current++; return; }
    return new Promise((resolve) => { this.queue.push(resolve); });
  }
  release() {
    this.current--;
    if (this.queue.length > 0) { this.current++;
      const resolve = this.queue.shift(); resolve(); }
  }
}
```
Waiters in the queue are identified by a `Nat` tag standing for the pushed
`resolve` callback. -/

structure Semaphore where
  max : Int
  current : Int
  queue : List Nat
deriving DecidableEq, Repr

/-- The constructor `constructor(max)`: no validation of `max` is performed
by the source; any value yields `current = 0` and an empty queue. -/
def Semaphore.mk' (max : Int) : Semaphore :=
  { max := max, current := 0, queue := [] }

/-- Outcome of `acquire()`: either the caller proceeds at once, or its
`resolve` is queued and the caller suspends. -/
inductive AcquireOutcome where
  | immediate
  | suspended
deriving DecidableEq, Repr

/-- `acquire()` for a caller tagged `w`. -/
def Semaphore.acquire (s : Semaphore) (w : Nat) : Semaphore × AcquireOutcome :=
  if s.current < s.max then
    ({ s with current := s.current + 1 }, .immediate)
  else
    ({ s with queue := s.queue ++ [w] }, .suspended)

/-- `release()`: decrement, then if a waiter is queued re-increment and
resolve the queue's head (`shift`). Returns the granted waiter, if any. -/
def Semaphore.release (s : Semaphore) : Semaphore × Option Nat :=
  let dec := { s with current := s.current - 1 }
  match dec.queue with
  | [] => (dec, none)
  | w :: rest => ({ dec with current := dec.current + 1, queue := rest }, some w)

/-- One step of a semaphore trace: an `acquire` by waiter `w` or a `release`. -/
inductive SemOp where
  | acq (w : Nat)
  | rel
deriving DecidableEq, Repr

/-- The state transformation of one trace step (outcomes discarded). -/
def Semaphore.stepOp (s : Semaphore) : SemOp → Semaphore
  | .acq w => (s.acquire w).1
  | .rel => s.release.1

/-- Run a trace of operations against a freshly constructed semaphore. -/
def runOps (max : Int) (ops : List SemOp) : Semaphore :=
  ops.foldl Semaphore.stepOp (Semaphore.mk' max)

/-- A trace starting at `s` is valid when every `release` happens while at
least one holder is present (each release is paired with a prior completed
acquire, as the downloader's `try/finally` guarantees). -/
def validFrom (s : Semaphore) : List SemOp → Bool
  | [] => true
  | op :: rest =>
    (match op with
     | .rel => decide (1 ≤ s.current)
     | .acq _ => true) && validFrom (s.stepOp op) rest

theorem Semaphore.stepOp_max (s : Semaphore) (op : SemOp) :
    (s.stepOp op).max = s.max := by
  cases op with
  | acq w =>
    simp only [stepOp, acquire]
    split <;> rfl
  | rel =>
    simp only [stepOp, release]
    split <;> rfl

theorem Semaphore.stepOp_current_le (s : Semaphore) (op : SemOp)
    (h : s.current ≤ s.max) : (s.stepOp op).current ≤ (s.stepOp op).max := by
  cases op with
  | acq w =>
    simp only [stepOp, acquire]
    split <;> simp_all <;> omega
  | rel =>
    simp only [stepOp, release]
    split <;> simp_all <;> omega

theorem foldl_stepOp_current_le (ops : List SemOp) (s : Semaphore)
    (h : s.current ≤ s.max) :
    (ops.foldl Semaphore.stepOp s).current ≤ (ops.foldl Semaphore.stepOp s).max := by
  induction ops generalizing s with
  | nil => exact h
  | cons op rest ih =>
    exact ih (s.stepOp op) (s.stepOp_current_le op h)

theorem foldl_stepOp_max (ops : List SemOp) (s : Semaphore) :
    (ops.foldl Semaphore.stepOp s).max = s.max := by
  induction ops generalizing s with
  | nil => rfl
  | cons op rest ih => rw [List.foldl_cons, ih, Semaphore.stepOp_max]

/-- C3: over any valid trace against a semaphore of capacity `max ≥ 1`, the
holder count never exceeds `max` (at every prefix of the trace); `acquire`
proceeds immediately exactly when `current < max`, and otherwise appends the
caller to the tail of the wait queue; `release` on a non-empty queue grants
the slot to the queue's head (FIFO), removes it from the queue, and keeps the
holder count unchanged across the hand-off. -/
theorem semaphore_bounded_fifo (max : Int) (ops : List SemOp) (n : Nat)
    (s : Semaphore) (w : Nat) (rest : List Nat)
    (hmax : 1 ≤ max) (hvalid : validFrom (Semaphore.mk' max) ops = true)
    (hq : s.queue = w :: rest) :
    (runOps max (ops.take n)).current ≤ max
    ∧ (((s.acquire w).2 = .immediate) ↔ s.current < s.max)
    ∧ ((s.acquire w).1.queue = if s.current < s.max then s.queue else s.queue ++ [w])
    ∧ s.release.2 = some w ∧ s.release.1.queue = rest
    ∧ s.release.1.current = s.current ∧ s.release.1.max = s.max := by
  refine ⟨?_, ?_, ?_, ?_⟩
  · have h0 : (Semaphore.mk' max).current ≤ (Semaphore.mk' max).max := by
      simp [Semaphore.mk']; omega
    have h1 := foldl_stepOp_current_le (ops.take n) (Semaphore.mk' max) h0
    rw [foldl_stepOp_max] at h1
    simpa [runOps, Semaphore.mk'] using h1
  · simp only [Semaphore.acquire]
    split <;> simp_all
  · simp only [Semaphore.acquire]
    split <;> simp_all
  · refine ⟨?_, ?_, ?_, ?_⟩ <;> simp [Semaphore.release, hq] <;> omega

/-- Witness for `semaphore_bounded_fifo` at capacity 2, the trace
acq 0, acq 1, acq 2 (the third suspends), then three releases, and the
saturated state ⟨max 2, 2 holders, waiter 7 queued⟩. -/
theorem semaphore_bounded_fifo_witness :
    (runOps 2 ([SemOp.acq 0, SemOp.acq 1, SemOp.acq 2,
                SemOp.rel, SemOp.rel, SemOp.rel].take 6)).current ≤ 2
    ∧ (((Semaphore.acquire ⟨2, 2, [7]⟩ 7).2 = .immediate) ↔
        (Semaphore.mk 2 2 [7]).current < (Semaphore.mk 2 2 [7]).max)
    ∧ ((Semaphore.acquire ⟨2, 2, [7]⟩ 7).1.queue =
        if (Semaphore.mk 2 2 [7]).current < (Semaphore.mk 2 2 [7]).max
        then (Semaphore.mk 2 2 [7]).queue else (Semaphore.mk 2 2 [7]).queue ++ [7])
    ∧ (Semaphore.release ⟨2, 2, [7]⟩).2 = some 7
    ∧ (Semaphore.release ⟨2, 2, [7]⟩).1.queue = []
    ∧ (Semaphore.release ⟨2, 2, [7]⟩).1.current = (Semaphore.mk 2 2 [7]).current
    ∧ (Semaphore.release ⟨2, 2, [7]⟩).1.max = (Semaphore.mk 2 2 [7]).max :=
  semaphore_bounded_fifo 2 [SemOp.acq 0, SemOp.acq 1, SemOp.acq 2,
    SemOp.rel, SemOp.rel, SemOp.rel] 6 ⟨2, 2, [7]⟩ 7 []
    (by decide) (by decide) rfl

/-- C7 counterexample: the `Semaphore` constructor performs no capacity
validation — there is no `InvalidCapacityError` anywhere in the source.
Constructing with max = 0 or max = -5 succeeds and yields an ordinary state
with that capacity, zero holders and an empty queue. -/
theorem semaphore_mk_no_validation :
    Semaphore.mk' 0 = { max := 0, current := 0, queue := [] }
    ∧ Semaphore.mk' (-5) = { max := -5, current := 0, queue := [] } :=
  ⟨rfl, rfl⟩

/-- C7 amended: the constructor accepts any `max` unchecked; when `max < 1`
the resulting gate is unusable in the sense that no `acquire` ever proceeds
immediately — every caller is queued forever. -/
theorem semaphore_mk_below_one (max : Int) (w : Nat) (h : max < 1) :
    Semaphore.mk' max = { max := max, current := 0, queue := [] }
    ∧ ((Semaphore.mk' max).acquire w).2 = .suspended
    ∧ ((Semaphore.mk' max).acquire w).1.queue = [w] := by
  refine ⟨rfl, ?_, ?_⟩ <;>
    simp [Semaphore.mk', Semaphore.acquire, show ¬((0:Int) < max) by omega]

/-- Witness for `semaphore_mk_below_one` at max = 0, waiter 3. -/
theorem semaphore_mk_below_one_witness :
    Semaphore.mk' 0 = { max := 0, current := 0, queue := [] }
    ∧ ((Semaphore.mk' 0).acquire 3).2 = .suspended
    ∧ ((Semaphore.mk' 0).acquire 3).1.queue = [3] :=
  semaphore_mk_below_one 0 3 (by decide)

/-! ## Progress tracking (src/utils/progressTracker.js)

`ProgressTracker` enriches raw transport progress events with elapsed time,
ETA and average speed and appends them to a history; `BatchProgressTracker`
aggregates per-item trackers. Percentages and speeds are `Rat` (the code
divides); times are `Int` milliseconds. -/

/-- An enriched progress sample, as `updateProgress` appends it to
`progressHistory` (only the fields the verified operations read). -/
structure Sample where
  downloadedBytes : Int
  totalBytes : Int
  percentage : Rat
  speed : Rat
  elapsedTime : Int
  averageSpeed : Rat
deriving DecidableEq, Repr

structure ProgressTracker where
  progressHistory : List Sample
  startTime : Option Int
  lastUpdateTime : Option Int
deriving DecidableEq, Repr

/-- `new ProgressTracker()`. -/
def ProgressTracker.init : ProgressTracker :=
  { progressHistory := [], startTime := none, lastUpdateTime := none }

/-- `start()` at clock reading `now`. -/
def ProgressTracker.start (_t : ProgressTracker) (now : Int) : ProgressTracker :=
  { progressHistory := [], startTime := some now, lastUpdateTime := some now }

/-- `calculateETA(percentage, elapsedTime)`:
`null` when `percentage <= 0`, else `max(0, (elapsed / percentage) * 100 - elapsed)`. -/
def ProgressTracker.calculateETA (percentage : Rat) (elapsedTime : Rat) : Option Rat :=
  if percentage ≤ 0 then none
  else
    let totalEstimatedTime := (elapsedTime / percentage) * 100
    some (max 0 (totalEstimatedTime - elapsedTime))

/-- `calculateAverageSpeed(downloadedBytes, elapsedTime)`:
0 when `elapsedTime <= 0`, else `(downloadedBytes / elapsedTime) * 1000`. -/
def ProgressTracker.calculateAverageSpeed (downloadedBytes : Rat) (elapsedTime : Rat) : Rat :=
  if elapsedTime ≤ 0 then 0
  else (downloadedBytes / elapsedTime) * 1000

/-- The summary record `getSummary()` returns. `finalPercentage` is `none`
exactly when the zeroed summary is returned (the empty-history branch of the
source builds an object with no `finalPercentage` field). -/
structure Summary where
  totalTime : Int
  averageSpeed : Rat
  peakSpeed : Rat
  progressUpdates : Nat
  finalPercentage : Option Rat
deriving DecidableEq, Repr

/-- `speeds.length > 0 ? Math.max(...speeds) : 0`: the maximum of a list of
speeds, 0 for the empty list. -/
def maxOfSpeeds : List Rat → Rat
  | [] => 0
  | x :: xs => xs.foldl max x

/-- `getSummary()`: zeroed summary on empty history; otherwise the last
sample's elapsed time, average speed and percentage, the maximum of the
positive instantaneous speeds (`Math.max(...speeds)`, 0 when the filter left
nothing), and the history length. -/
def ProgressTracker.getSummary (t : ProgressTracker) : Summary :=
  match t.progressHistory.getLast? with
  | none =>
    { totalTime := 0, averageSpeed := 0, peakSpeed := 0, progressUpdates := 0,
      finalPercentage := none }
  | some lastProgress =>
    let speeds := (t.progressHistory.filter (fun p => 0 < p.speed)).map (·.speed)
    { totalTime := lastProgress.elapsedTime
      averageSpeed := lastProgress.averageSpeed
      peakSpeed := maxOfSpeeds speeds
      progressUpdates := t.progressHistory.length
      finalPercentage := some lastProgress.percentage }

/-! ### Batch progress tracker -/

/-- JS `Map.set` on an association list: replace in place when the key is
present (`Map` keeps the original insertion position), append otherwise. -/
def mapSet {α : Type} : List (Nat × α) → Nat → α → List (Nat × α)
  | [], k, v => [(k, v)]
  | (k', v') :: rest, k, v =>
    if k' = k then (k, v) :: rest else (k', v') :: mapSet rest k v

/-- JS `Map.get` on an association list. -/
def mapGet {α : Type} : List (Nat × α) → Nat → Option α
  | [], _ => none
  | (k', v) :: rest, k => if k' = k then some v else mapGet rest k

structure BatchProgressTracker where
  totalItems : Nat
  completedItems : Nat
  activeTrackers : List (Nat × ProgressTracker)
  completedTrackers : List (Nat × Summary)
  startTime : Int
deriving DecidableEq, Repr

/-- `new BatchProgressTracker(totalItems)` at clock reading `now`. -/
def BatchProgressTracker.init (totalItems : Nat) (now : Int) : BatchProgressTracker :=
  { totalItems := totalItems, completedItems := 0, activeTrackers := [],
    completedTrackers := [], startTime := now }

/-- `createItemTracker(itemId)`: allocate a fresh tracker, `set` it into
`activeTrackers` (replacing any tracker already registered under `itemId`),
start it, and return it. The source performs no duplicate check. -/
def BatchProgressTracker.createItemTracker (b : BatchProgressTracker) (itemId : Nat)
    (now : Int) : BatchProgressTracker × ProgressTracker :=
  let tracker := ProgressTracker.init.start now
  ({ b with activeTrackers := mapSet b.activeTrackers itemId tracker }, tracker)

/-- `completeItem(itemId)`: when `itemId` is active, push its summary onto
`completedTrackers`, deregister it and bump the completed count; otherwise a
no-op. -/
def BatchProgressTracker.completeItem (b : BatchProgressTracker) (itemId : Nat) :
    BatchProgressTracker :=
  match mapGet b.activeTrackers itemId with
  | none => b
  | some tracker =>
    { b with
      completedTrackers := b.completedTrackers ++ [(itemId, tracker.getSummary)]
      activeTrackers := (b.activeTrackers.filter (fun kv => kv.1 ≠ itemId))
      completedItems := b.completedItems + 1 }

/-- `calculateBatchETA(percentage, elapsedTime)` — textually identical to
`ProgressTracker.calculateETA`. -/
def BatchProgressTracker.calculateBatchETA (percentage : Rat) (elapsedTime : Rat) :
    Option Rat :=
  if percentage ≤ 0 then none
  else
    let totalEstimatedTime := (elapsedTime / percentage) * 100
    some (max 0 (totalEstimatedTime - elapsedTime))

/-- C5: the ETA computation is identical in the single-item and the batch
tracker; it is `none` for percentage ≤ 0 and `max 0 ((t / p) * 100 - t)`
otherwise; at elapsed 10000 ms and percentage 50 the estimate is 10000 ms. -/
theorem calculateETA_spec (p t : Rat) :
    ProgressTracker.calculateETA p t = BatchProgressTracker.calculateBatchETA p t
    ∧ (p ≤ 0 → ProgressTracker.calculateETA p t = none)
    ∧ (0 < p → ProgressTracker.calculateETA p t = some (max 0 ((t / p) * 100 - t)))
    ∧ ProgressTracker.calculateETA 50 10000 = some 10000
    ∧ ProgressTracker.calculateETA 0 10000 = none := by
  refine ⟨rfl, ?_, ?_, ?_, ?_⟩
  · intro h
    simp [ProgressTracker.calculateETA, h]
  · intro h
    simp [ProgressTracker.calculateETA, not_le.mpr h]
  · norm_num [ProgressTracker.calculateETA]
  · norm_num [ProgressTracker.calculateETA]

/-- Witness for `calculateETA_spec` at percentage 50, elapsed 10000. -/
theorem calculateETA_spec_witness :
    ProgressTracker.calculateETA 50 10000 = BatchProgressTracker.calculateBatchETA 50 10000
    ∧ ProgressTracker.calculateETA 50 10000 = some (max 0 ((10000 / 50) * 100 - 10000))
    ∧ ProgressTracker.calculateETA 50 10000 = some 10000
    ∧ ProgressTracker.calculateETA 0 10000 = none :=
  ⟨(calculateETA_spec 50 10000).1, (calculateETA_spec 50 10000).2.2.1 (by norm_num),
   (calculateETA_spec 50 10000).2.2.2.1, (calculateETA_spec 0 10000).2.1 le_rfl⟩

/-! ### Lemmas about the peak speed -/

theorem le_foldl_max_init (xs : List Rat) (a : Rat) : a ≤ xs.foldl max a := by
  induction xs generalizing a with
  | nil => simp
  | cons x xs ih => exact le_trans (le_max_left a x) (ih (max a x))

theorem mem_le_foldl_max (xs : List Rat) (a x : Rat) (h : x ∈ xs) :
    x ≤ xs.foldl max a := by
  induction xs generalizing a with
  | nil => cases h
  | cons y ys ih =>
    rcases List.mem_cons.mp h with rfl | h'
    · exact le_trans (le_max_right a x) (le_foldl_max_init ys (max a x))
    · rw [List.foldl_cons]
      exact ih (max a y) h'

theorem foldl_max_eq_or_mem (xs : List Rat) (a : Rat) :
    xs.foldl max a = a ∨ xs.foldl max a ∈ xs := by
  induction xs generalizing a with
  | nil => left; rfl
  | cons y ys ih =>
    rcases ih (max a y) with h | h
    · rcases max_cases a y with ⟨hm, _⟩ | ⟨hm, _⟩
      · left; rw [List.foldl_cons, h, hm]
      · right; rw [List.foldl_cons, h, hm]; exact List.mem_cons_self y ys
    · right; exact List.mem_cons_of_mem y h

theorem le_maxOfSpeeds (l : List Rat) (x : Rat) (h : x ∈ l) : x ≤ maxOfSpeeds l := by
  match l with
  | [] => cases h
  | y :: ys =>
    rcases List.mem_cons.mp h with rfl | h'
    · exact le_foldl_max_init ys x
    · exact mem_le_foldl_max ys y x h'

theorem maxOfSpeeds_eq_zero_or_mem (l : List Rat) :
    maxOfSpeeds l = 0 ∨ maxOfSpeeds l ∈ l := by
  match l with
  | [] => left; rfl
  | y :: ys =>
    right
    rcases foldl_max_eq_or_mem ys y with h | h
    · rw [maxOfSpeeds, h]; exact List.mem_cons_self y ys
    · exact List.mem_cons_of_mem y h

/-- C9: `getSummary` returns the all-zero summary (with no final percentage)
when the progress history is empty; on a non-empty history `hist ++ [p]` it
returns the last sample's elapsed time, average speed and percentage, the
sample count, and a peak speed that bounds every positive instantaneous
speed and is 0 or attained by some sample with positive speed. -/
theorem getSummary_spec (hist : List Sample) (p : Sample) (st lt : Option Int) :
    ProgressTracker.getSummary ⟨[], st, lt⟩ =
      { totalTime := 0, averageSpeed := 0, peakSpeed := 0, progressUpdates := 0,
        finalPercentage := none }
    ∧ (ProgressTracker.getSummary ⟨hist ++ [p], st, lt⟩).totalTime = p.elapsedTime
    ∧ (ProgressTracker.getSummary ⟨hist ++ [p], st, lt⟩).averageSpeed = p.averageSpeed
    ∧ (ProgressTracker.getSummary ⟨hist ++ [p], st, lt⟩).progressUpdates = hist.length + 1
    ∧ (ProgressTracker.getSummary ⟨hist ++ [p], st, lt⟩).finalPercentage = some p.percentage
    ∧ (∀ q ∈ hist ++ [p], 0 < q.speed →
        q.speed ≤ (ProgressTracker.getSummary ⟨hist ++ [p], st, lt⟩).peakSpeed)
    ∧ ((ProgressTracker.getSummary ⟨hist ++ [p], st, lt⟩).peakSpeed = 0
       ∨ ∃ q ∈ hist ++ [p], 0 < q.speed ∧
          q.speed = (ProgressTracker.getSummary ⟨hist ++ [p], st, lt⟩).peakSpeed) := by
  have hlast : (hist ++ [p]).getLast? = some p := by
    simp [List.getLast?_concat]
  refine ⟨rfl, ?_, ?_, ?_, ?_, ?_, ?_⟩
  · simp [ProgressTracker.getSummary, hlast]
  · simp [ProgressTracker.getSummary, hlast]
  · simp [ProgressTracker.getSummary, hlast]
  · simp [ProgressTracker.getSummary, hlast]
  · intro q hq hpos
    have hmem : q.speed ∈ ((hist ++ [p]).filter (fun r => 0 < r.speed)).map (·.speed) := by
      exact List.mem_map_of_mem _ (List.mem_filter.mpr ⟨hq, by simpa using hpos⟩)
    have := le_maxOfSpeeds _ _ hmem
    simpa [ProgressTracker.getSummary, hlast] using this
  · rcases maxOfSpeeds_eq_zero_or_mem
        (((hist ++ [p]).filter (fun r => 0 < r.speed)).map (·.speed)) with h | h
    · left; simpa [ProgressTracker.getSummary, hlast] using h
    · right
      rcases List.mem_map.mp h with ⟨q, hqmem, hqeq⟩
      rcases List.mem_filter.mp hqmem with ⟨hql, hqpos⟩
      exact ⟨q, hql, by simpa using hqpos, by
        simpa [ProgressTracker.getSummary, hlast] using hqeq⟩

/-! ### createItemTracker (C8) -/

theorem mapGet_mapSet_self {α : Type} (m : List (Nat × α)) (k : Nat) (v : α) :
    mapGet (mapSet m k v) k = some v := by
  induction m with
  | nil => simp [mapSet, mapGet]
  | cons kv rest ih =>
    obtain ⟨a, b⟩ := kv
    by_cases h : a = k
    · simp [mapSet, mapGet, h]
    · simpa [mapSet, mapGet, h] using ih

theorem mapGet_mapSet_other {α : Type} (m : List (Nat × α)) (k k' : Nat) (v : α)
    (h : k' ≠ k) : mapGet (mapSet m k v) k' = mapGet m k' := by
  induction m with
  | nil => simp [mapSet, mapGet, Ne.symm h]
  | cons kv rest ih =>
    obtain ⟨a, b⟩ := kv
    by_cases hk : a = k
    · subst hk
      simp [mapSet, mapGet, Ne.symm h]
    · by_cases hk' : a = k'
      · simp [mapSet, mapGet, hk, hk', h]
      · simp [mapSet, mapGet, hk, hk', ih]

/-- C8 counterexample: `createItemTracker` raises no `DuplicateItemError` —
registering id 0 twice (at clock readings 5 then 7) succeeds and silently
replaces the first tracker with the second. -/
theorem createItemTracker_no_duplicate_error :
    (((BatchProgressTracker.init 2 0).createItemTracker 0 5).1.createItemTracker 0 7).1.activeTrackers
      = [(0, ⟨[], some 7, some 7⟩)]
    ∧ ((BatchProgressTracker.init 2 0).createItemTracker 0 5).1.activeTrackers
      = [(0, ⟨[], some 5, some 5⟩)] := by
  constructor <;> rfl

/-- C8 amended: `createItemTracker(id)` always allocates and starts a fresh
tracker and registers it under `id`; when `id` is already active the
existing tracker is silently replaced (other ids and the counters are
untouched) — no `DuplicateItemError` exists in the source. -/
theorem createItemTracker_spec (b : BatchProgressTracker) (itemId k : Nat) (now : Int)
    (hk : k ≠ itemId) :
    (b.createItemTracker itemId now).2 = ⟨[], some now, some now⟩
    ∧ mapGet (b.createItemTracker itemId now).1.activeTrackers itemId =
        some ⟨[], some now, some now⟩
    ∧ mapGet (b.createItemTracker itemId now).1.activeTrackers k =
        mapGet b.activeTrackers k
    ∧ (b.createItemTracker itemId now).1.completedItems = b.completedItems
    ∧ (b.createItemTracker itemId now).1.totalItems = b.totalItems
    ∧ (b.createItemTracker itemId now).1.completedTrackers = b.completedTrackers := by
  refine ⟨rfl, ?_, ?_, rfl, rfl, rfl⟩
  · exact mapGet_mapSet_self b.activeTrackers itemId _
  · exact mapGet_mapSet_other b.activeTrackers itemId k _ hk

/-- Witness for `createItemTracker_spec`: a batch of 3 with item 1 already
active, registering item 1 again at clock 9 and reading back item 2. -/
theorem createItemTracker_spec_witness :
    ((((BatchProgressTracker.init 3 0).createItemTracker 1 4).1).createItemTracker 1 9).2
      = ⟨[], some 9, some 9⟩
    ∧ mapGet ((((BatchProgressTracker.init 3 0).createItemTracker 1 4).1).createItemTracker 1 9).1.activeTrackers 1
      = some ⟨[], some 9, some 9⟩
    ∧ mapGet ((((BatchProgressTracker.init 3 0).createItemTracker 1 4).1).createItemTracker 1 9).1.activeTrackers 2
      = mapGet (((BatchProgressTracker.init 3 0).createItemTracker 1 4).1).activeTrackers 2
    ∧ ((((BatchProgressTracker.init 3 0).createItemTracker 1 4).1).createItemTracker 1 9).1.completedItems
      = (((BatchProgressTracker.init 3 0).createItemTracker 1 4).1).completedItems
    ∧ ((((BatchProgressTracker.init 3 0).createItemTracker 1 4).1).createItemTracker 1 9).1.totalItems
      = (((BatchProgressTracker.init 3 0).createItemTracker 1 4).1).totalItems
    ∧ ((((BatchProgressTracker.init 3 0).createItemTracker 1 4).1).createItemTracker 1 9).1.completedTrackers
      = (((BatchProgressTracker.init 3 0).createItemTracker 1 4).1).completedTrackers :=
  createItemTracker_spec ((BatchProgressTracker.init 3 0).createItemTracker 1 4).1 1 2 9
    (by decide)

/-! ## URL validation (src/utils/validator.js)

`new URL(url)` is a platform collaborator; its outcome is an oracle
`parse : String → Option UrlParts` (none = the constructor threw). -/

/-- The fields of a parsed WHATWG URL that the validator reads. `protocol`
carries the trailing colon, as `URL#protocol` reports it. -/
structure UrlParts where
  protocol : String
  pathname : String
  search : String
deriving DecidableEq, Repr

/-- `t` occurs as a contiguous run inside `s` (lists of characters). -/
def hasSub (t : List Char) : List Char → Bool
  | [] => t.isEmpty
  | c :: rest => t.isPrefixOf (c :: rest) || hasSub t rest

/-- JS `String#includes` (for non-empty needles): substring containment. -/
def strIncludes (s t : String) : Bool := hasSub t.toList s.toList

/-- ASCII lowering of one character (the URLs and format names the code
compares are ASCII, so this matches `String.prototype.toLowerCase`). -/
def charLower (c : Char) : Char :=
  if 'A' ≤ c && c ≤ 'Z' then Char.ofNat (c.toNat + 32) else c

/-- JS `toLowerCase()` on ASCII text. -/
def strToLower (s : String) : String := ⟨s.toList.map charLower⟩

/-- JS `String#endsWith`. -/
def strEndsWith (s t : String) : Bool := t.toList.isSuffixOf s.toList

/-- JS truthiness of an optional string: present and non-empty. -/
def truthyStr : Option String → Bool
  | none => false
  | some s => s ≠ ""

/-- JS truthiness of an optional number: present and non-zero. -/
def truthyInt : Option Int → Bool
  | none => false
  | some n => n ≠ 0

def imageExtensions : List String :=
  [".jpg", ".jpeg", ".png", ".gif", ".webp", ".bmp", ".tiff", ".svg"]

/-- `validateImageUrl(url)`: false for a falsy url or a url the parser
rejects; otherwise require scheme http/https and either an image extension
at the end of the lower-cased path or an image hint in the query string. -/
def validateImageUrl (parse : String → Option UrlParts) (url : String) : Bool :=
  if url = "" then false
  else
    match parse url with
    | none => false
    | some u =>
      if !(["http:", "https:"].contains u.protocol) then false
      else
        let pathname := strToLower u.pathname
        let hasImageExtension := imageExtensions.any (fun ext => strEndsWith pathname ext)
        let hasImageQuery := strIncludes u.search "format=" || strIncludes u.search "type=image"
          || strIncludes u.search ".jpg" || strIncludes u.search ".png"
          || strIncludes u.search ".webp"
        hasImageExtension || hasImageQuery

/-- The options record `validateDownloadOptions` inspects. The fields are
typed, so the source's `typeof` checks (savePath, filename) cannot fail and
contribute no errors. -/
structure OptionsToValidate where
  savePath : Option String := none
  filename : Option String := none
  format : Option String := none
  maxWidth : Option Int := none
  maxHeight : Option Int := none
  concurrency : Option Int := none
deriving DecidableEq, Repr

structure ValidationResult where
  isValid : Bool
  errors : List String
  warnings : List String
deriving DecidableEq, Repr

def validFormats : List String := ["jpeg", "png", "webp", "gif", "tiff"]

/-- `validateDownloadOptions(options)`. Every guard is behind JS truthiness
(`if (options.x)`), so an absent, empty-string or zero field is skipped;
`Number.isInteger` always holds in the `Int` model. -/
def validateDownloadOptions (o : OptionsToValidate) : ValidationResult :=
  let errors :=
    (if truthyStr o.format && !(validFormats.contains (strToLower (o.format.getD ""))) then
      ["format must be one of: jpeg, png, webp, gif, tiff"] else [])
    ++ (if truthyInt o.maxWidth && o.maxWidth.getD 0 ≤ 0 then
      ["maxWidth must be a positive integer"] else [])
    ++ (if truthyInt o.maxHeight && o.maxHeight.getD 0 ≤ 0 then
      ["maxHeight must be a positive integer"] else [])
    ++ (if truthyInt o.concurrency
          && !(1 ≤ o.concurrency.getD 0 && o.concurrency.getD 0 ≤ 10) then
      ["concurrency must be an integer between 1 and 10"] else [])
  let warnings :=
    (if truthyInt o.maxWidth && 4000 < o.maxWidth.getD 0 then
      ["maxWidth is very large, this may consume significant memory"] else [])
    ++ (if truthyInt o.maxHeight && 4000 < o.maxHeight.getD 0 then
      ["maxHeight is very large, this may consume significant memory"] else [])
  { isValid := errors = [], errors := errors, warnings := warnings }

/-! ## Image processing (src/processor.js)

The sharp codec is a collaborator; a `SharpSpec` records which resize and
encode operations the processor configures on the pipeline. -/

/-- The encode operation `applyFormat` configures, with its parameters. -/
inductive EncodeOp where
  | jpeg (quality : Int) (progressive : Bool)
  | png (compressionLevel : Int) (progressive : Bool)
  | webp (quality : Int) (effort : Int)
  | gif
  | tiff (compression : String)
deriving DecidableEq, Repr

/-- What a configured sharp pipeline will do: an optional fit-inside,
no-enlargement resize bounded by (maxWidth, maxHeight), and an optional
re-encode. -/
structure SharpSpec where
  resize : Option (Option Int × Option Int)
  encode : Option EncodeOp
deriving DecidableEq, Repr

def sharpInit : SharpSpec := { resize := none, encode := none }

structure ProcessOptions where
  format : Option String := none
  compress : Bool := false
  maxWidth : Option Int := none
  maxHeight : Option Int := none
  quality : Int := 80
deriving DecidableEq, Repr

/-- `if (maxWidth || maxHeight) processor.resize(maxWidth, maxHeight,
{fit: 'inside', withoutEnlargement: true})`. -/
def applyResize (s : SharpSpec) (o : ProcessOptions) : SharpSpec :=
  if truthyInt o.maxWidth || truthyInt o.maxHeight then
    { s with resize := some (o.maxWidth, o.maxHeight) }
  else s

/-- `applyFormat(processor, format, compress, quality)`: the format switch;
an unrecognized format throws. -/
def applyFormat (s : SharpSpec) (format : String) (compress : Bool) (quality : Int) :
    Except String SharpSpec :=
  match strToLower format with
  | "jpeg" => .ok { s with encode := some (.jpeg (if compress then quality else 95) true) }
  | "jpg" => .ok { s with encode := some (.jpeg (if compress then quality else 95) true) }
  | "png" => .ok { s with encode := some (.png (if compress then 9 else 6) true) }
  | "webp" =>
    .ok { s with encode := some (.webp (if compress then quality else 95) (if compress then 6 else 4)) }
  | "gif" => .ok { s with encode := some .gif }
  | "tiff" => .ok { s with encode := some (.tiff (if compress then "lzw" else "none")) }
  | _ => .error ("Unsupported format: " ++ format)

/-- `createTransformer(options)` (the streaming path): resize, then format
conversion; with no target format but `compress` set it applies JPEG
compression. -/
def createTransformer (o : ProcessOptions) : Except String SharpSpec :=
  let t := applyResize sharpInit o
  if truthyStr o.format then applyFormat t (o.format.getD "") o.compress o.quality
  else if o.compress then applyFormat t "jpeg" o.compress o.quality
  else .ok t

/-- The sharp-pipeline configuration of `processFile(input, output, options)`
(the file-based path): identical to `createTransformer` except that with no
target format but `compress` set it reads the file's metadata and re-encodes
in the original format `metadataFormat`. -/
def processFile (o : ProcessOptions) (metadataFormat : String) : Except String SharpSpec :=
  let t := applyResize sharpInit o
  if truthyStr o.format then applyFormat t (o.format.getD "") o.compress o.quality
  else if o.compress then applyFormat t metadataFormat o.compress o.quality
  else .ok t

def isJpegEncode : Option EncodeOp → Bool
  | some (.jpeg _ _) => true
  | _ => false

/-! ## Single-item download orchestrator (src/downloader.js, downloadSingle)

All I/O outcomes are supplied in a `DownloadEnv`; the progress tracker the
function starts and feeds is write-only state that never influences the
returned `DownloadResult`, so it is not modelled here. -/

/-- What the HEAD probe's transport returned, when it did not throw. -/
structure HeadResponse where
  contentType : Option String
  contentLength : Option Int
deriving DecidableEq, Repr

structure ImageInfo where
  contentType : String
  contentLength : Int
deriving DecidableEq, Repr

/-- JS `x || d` for an optional string: `d` when absent or empty. -/
def jsOrStr (s : String) (d : String) : String := if s = "" then d else s

/-- `getImageInfo(url)`: read content type and length off the HEAD response,
with fallbacks `"image/jpeg"` / 0; a thrown HEAD request (`head = none`) is
absorbed into the same defaults. -/
def getImageInfo (head : Option HeadResponse) : ImageInfo :=
  match head with
  | none => { contentType := "image/jpeg", contentLength := 0 }
  | some h =>
    { contentType := jsOrStr (h.contentType.getD "") "image/jpeg"
      contentLength := match h.contentLength with
                       | none => 0
                       | some n => n }

/-- Split a character list on '/'. -/
def splitOnSlash : List Char → List (List Char)
  | [] => [[]]
  | c :: rest =>
    match splitOnSlash rest with
    | [] => if c = '/' then [[], []] else [[c]]
    | seg :: segs => if c = '/' then [] :: seg :: segs else (c :: seg) :: segs

/-- POSIX `path.basename`: last non-empty path segment, "" when none. -/
def basenameOf (p : String) : String :=
  match ((splitOnSlash p.toList).filter (fun seg => seg ≠ [])).getLast? with
  | none => ""
  | some seg => ⟨seg⟩

/-- Index of the last '.' in a list of characters, if any. -/
def lastDotIdx (cs : List Char) : Option Nat :=
  match cs.reverse.findIdx? (fun c => c = '.') with
  | none => none
  | some i => some (cs.length - 1 - i)

/-- Node `path.parse(base).name`: the base without its extension; a dot at
position 0 starts no extension. -/
def parsedName (base : String) : String :=
  match lastDotIdx base.toList with
  | none => base
  | some 0 => base
  | some i => ⟨base.toList.take i⟩

/-- Node `path.extname(base).slice(1)`: the extension without its dot. -/
def extnameAfterDot (base : String) : String :=
  match lastDotIdx base.toList with
  | none => ""
  | some 0 => ""
  | some i => ⟨base.toList.drop (i + 1)⟩

def contentTypeMap : List (String × String) :=
  [("image/jpeg", "jpg"), ("image/png", "png"), ("image/webp", "webp"), ("image/gif", "gif")]

/-- `generateFilename(url, contentType, format)`: name from the URL's last
path segment, extension from the requested format, else the content type
map, else the URL extension, else "jpg", suffixed with `Date.now()`.
`new URL(url)` throwing (parse = none) propagates as an error. -/
def generateFilename (parse : String → Option UrlParts) (url contentType : String)
    (format : Option String) (timestamp : Int) : Except String String :=
  match parse url with
  | none => .error "Invalid URL"
  | some u =>
    let baseName := jsOrStr (basenameOf u.pathname) "image"
    let nameWithoutExt := jsOrStr (parsedName baseName) "image"
    let extension :=
      if truthyStr format then
        (if format.getD "" = "jpeg" then "jpg" else format.getD "")
      else
        jsOrStr (jsOrStr ((contentTypeMap.lookup contentType).getD "") (extnameAfterDot baseName)) "jpg"
    .ok (nameWithoutExt ++ "_" ++ toString timestamp ++ "." ++ extension)

/-- `path.join(dir, name)` (normalization of "." segments not modelled — no
verified property reads the path's text). -/
def joinPath (a b : String) : String :=
  if a = "" then b else if strEndsWith a "/" then a ++ b else a ++ "/" ++ b

/-- The per-download options `downloadSingle` destructures. -/
structure DownloadOptions where
  savePath : Option String := none
  filename : Option String := none
  format : Option String := none
  compress : Bool := false
  maxWidth : Option Int := none
  maxHeight : Option Int := none
deriving DecidableEq, Repr

/-- Every I/O outcome one `downloadSingle` run can observe: the URL parser,
directory creation, the HEAD probe (`none` = it threw), the GET request, the
stream-processing result, the verbatim write, the file stat, and the two
clock readings. -/
structure DownloadEnv where
  parse : String → Option UrlParts
  ensureDir : Except String Unit
  head : Option HeadResponse
  get : Except String Unit
  processResult : Except String String
  writeResult : Except String Unit
  statSize : Except String Int
  timestamp : Int
  now : String

structure DownloadResult where
  success : Bool
  url : String
  filePath : Option String := none
  filename : Option String := none
  size : Option Int := none
  contentType : Option String := none
  error : Option String := none
  downloadedAt : String
deriving DecidableEq, Repr

/-- The `try` block of `downloadSingle`: directory, probe, filename, GET,
process-or-save, stat; the first throw aborts the chain. Returns
(finalPath, finalFilename, size, contentType). -/
def downloadSingleBody (url : String) (o : DownloadOptions) (env : DownloadEnv) :
    Except String (String × String × Int × String) :=
  match env.ensureDir with
  | .error e => .error e
  | .ok _ =>
    let imageInfo := getImageInfo env.head
    let finalFilenameE :=
      if truthyStr o.filename then Except.ok (o.filename.getD "")
      else generateFilename env.parse url imageInfo.contentType o.format env.timestamp
    match finalFilenameE with
    | .error e => .error e
    | .ok finalFilename =>
      let filePath := joinPath (o.savePath.getD "./downloads") finalFilename
      match env.get with
      | .error e => .error e
      | .ok _ =>
        let finalPathE :=
          if truthyStr o.format || o.compress || truthyInt o.maxWidth || truthyInt o.maxHeight then
            env.processResult
          else
            match env.writeResult with
            | .error e => .error e
            | .ok _ => .ok filePath
        match finalPathE with
        | .error e => .error e
        | .ok finalPath =>
          match env.statSize with
          | .error e => .error e
          | .ok size => .ok (finalPath, basenameOf finalPath, size, imageInfo.contentType)

/-- `downloadSingle(url, options)`: the catch-all boundary — a successful
body yields the success record, a thrown error anywhere yields the failure
record carrying the message; nothing escapes. -/
def downloadSingle (url : String) (o : DownloadOptions) (env : DownloadEnv) :
    DownloadResult :=
  match downloadSingleBody url o env with
  | .ok (finalPath, name, size, contentType) =>
    { success := true, url := url, filePath := some finalPath, filename := some name,
      size := some size, contentType := some contentType, downloadedAt := env.now }
  | .error e =>
    { success := false, url := url, error := some e, downloadedAt := env.now }

/-! ## Batch orchestrator (src/downloader.js, downloadBatch)

`downloadBatch` maps each url (with its index) to a task that acquires the
gate, runs `downloadSingle`, stores the result at `results[index]` and
releases the gate; `Promise.all` then returns `results`. The gate and the
trackers never touch `results`, so the collection is modelled as the writes
`results[index] = result` performed in an arbitrary completion order. -/

/-- The `results[index] = result` writes of a batch, performed in completion
order `order`; `dl i` is what item i's `downloadSingle` resolved to. -/
def storeByIndex (dl : Nat → DownloadResult) (order : List Nat) :
    Nat → Option DownloadResult :=
  order.foldl (fun results index =>
    fun j => if j = index then some (dl index) else results j) (fun _ => none)

/-- The result list `downloadBatch(urls, options)` returns, given the
per-index I/O outcomes `envs` and the completion order `order`. Item i runs
`downloadSingle` on `urls[i]` with the shared per-download options. -/
def runBatch (urls : List String) (o : DownloadOptions) (envs : Nat → DownloadEnv)
    (order : List Nat) : List (Option DownloadResult) :=
  (List.range urls.length).map
    (storeByIndex (fun i => downloadSingle (urls.getD i "") o (envs i)) order)

/-! ## Tool front end (src/index.js, handleDownloadImagesBatch) -/

/-- The environment-derived defaults of `ImageDownloaderServer`. -/
structure DefaultConfig where
  savePath : String := "./downloads"
  format : String := "original"
  compress : Bool := false
  maxWidth : Option Int := none
  maxHeight : Option Int := none
  concurrency : Int := 3
deriving DecidableEq, Repr

/-- The arguments of the `download_images_batch` tool call; `none` stands
for an absent (undefined) argument, which the handler's destructuring
replaces with the configured default. -/
structure BatchArgs where
  urls : List String
  savePath : Option String := none
  format : Option String := none
  compress : Option Bool := none
  maxWidth : Option Int := none
  maxHeight : Option Int := none
  concurrency : Option Int := none
deriving DecidableEq, Repr

/-- The options object the handler passes to `downloadBatch` (lines 268-274
of src/index.js): defaults applied, `format: 'original'` mapped to null. -/
structure BatchOptions where
  savePath : Option String
  format : Option String
  compress : Bool
  maxWidth : Option Int
  maxHeight : Option Int
  concurrency : Option Int
deriving DecidableEq, Repr

def handlerOptions (args : BatchArgs) (cfg : DefaultConfig) : BatchOptions :=
  { savePath := some (args.savePath.getD cfg.savePath)
    format := (if args.format.getD cfg.format = "original" then none
               else some (args.format.getD cfg.format))
    compress := args.compress.getD cfg.compress
    maxWidth := match args.maxWidth with
                | some w => some w
                | none => cfg.maxWidth
    maxHeight := match args.maxHeight with
                 | some h => some h
                 | none => cfg.maxHeight
    concurrency := some (args.concurrency.getD cfg.concurrency) }

/-- `const { concurrency = 3, ...downloadOptions } = options` in
`downloadBatch`: the concurrency the batch actually runs with. -/
def downloadBatchConcurrency (o : BatchOptions) : Int := o.concurrency.getD 3

/-- `new Semaphore(concurrency)` in `downloadBatch`. -/
def downloadBatchSemaphore (o : BatchOptions) : Semaphore :=
  Semaphore.mk' (downloadBatchConcurrency o)

/-- The rest-spread `downloadOptions` forwarded to each `downloadSingle`. -/
def toSingleOptions (o : BatchOptions) : DownloadOptions :=
  { savePath := o.savePath, filename := none, format := o.format,
    compress := o.compress, maxWidth := o.maxWidth, maxHeight := o.maxHeight }

/-- `handleDownloadImagesBatch(args)`: filter the urls through
`validateImageUrl`; if any is invalid, throw listing them — `downloadBatch`
is reached only on the all-valid path. -/
def handleDownloadImagesBatch (args : BatchArgs) (cfg : DefaultConfig)
    (parse : String → Option UrlParts) (envs : Nat → DownloadEnv) (order : List Nat) :
    Except String (List (Option DownloadResult)) :=
  let invalidUrls := args.urls.filter (fun u => !validateImageUrl parse u)
  if invalidUrls ≠ [] then
    .error ("Invalid URLs found: " ++ String.intercalate ", " invalidUrls)
  else
    .ok (runBatch args.urls (toSingleOptions (handlerOptions args cfg)) envs order)

/-! ## Concrete fixtures used by witnesses and counterexamples -/

/-- A concrete URL-parser oracle covering the two example URLs. -/
def parseFixture : String → Option UrlParts := fun s =>
  if s = "https://example.com/page.html" then some ⟨"https:", "/page.html", ""⟩
  else if s = "https://example.com/a.jpg" then some ⟨"https:", "/a.jpg", ""⟩
  else none

/-- A concrete I/O environment whose GET request throws "boom". -/
def envFixture : DownloadEnv :=
  { parse := parseFixture, ensureDir := .ok (), head := none, get := .error "boom",
    processResult := .error "processing failed", writeResult := .ok (),
    statSize := .ok 0, timestamp := 42, now := "2025-01-01T00:00:00.000Z" }

/-! ## Theorems: single-item orchestrator (C2) -/

theorem downloadSingle_url_now (url : String) (o : DownloadOptions) (env : DownloadEnv) :
    (downloadSingle url o env).url = url
    ∧ (downloadSingle url o env).downloadedAt = env.now := by
  cases h : downloadSingleBody url o env with
  | ok v => obtain ⟨a, b, c, d⟩ := v; simp [downloadSingle, h]
  | error e => simp [downloadSingle, h]

/-- C2: `downloadSingle` never lets an error escape: whatever the I/O
environment does, the result carries the original url and the completion
timestamp; a failing body at any stage yields success=false with exactly
the triggering message and no file fields; a successful body yields
success=true with file path, size and content type present — in particular
a failed directory creation, or a failed GET after a successful probe,
surface as the failure record with that stage's message. -/
theorem downloadSingle_never_throws (url : String) (o : DownloadOptions) (env : DownloadEnv) :
    (downloadSingle url o env).url = url
    ∧ (downloadSingle url o env).downloadedAt = env.now
    ∧ ((downloadSingle url o env).success = true ↔ ∃ v, downloadSingleBody url o env = .ok v)
    ∧ (∀ e, downloadSingleBody url o env = .error e →
        downloadSingle url o env =
          { success := false, url := url, error := some e, downloadedAt := env.now })
    ∧ ((downloadSingle url o env).success = false →
        (downloadSingle url o env).error.isSome
        ∧ (downloadSingle url o env).filePath = none
        ∧ (downloadSingle url o env).size = none)
    ∧ ((downloadSingle url o env).success = true →
        (downloadSingle url o env).error = none
        ∧ (downloadSingle url o env).filePath.isSome
        ∧ (downloadSingle url o env).size.isSome
        ∧ (downloadSingle url o env).contentType.isSome)
    ∧ (∀ m, env.ensureDir = .error m →
        downloadSingle url o env =
          { success := false, url := url, error := some m, downloadedAt := env.now })
    ∧ (∀ m f, env.ensureDir = .ok () → o.filename = some f → f ≠ "" → env.get = .error m →
        downloadSingle url o env =
          { success := false, url := url, error := some m, downloadedAt := env.now }) := by
  obtain ⟨hurl, hnow⟩ := downloadSingle_url_now url o env
  refine ⟨hurl, hnow, ?_, ?_, ?_, ?_, ?_, ?_⟩
  · cases h : downloadSingleBody url o env with
    | ok v => simp [downloadSingle, h]
    | error e => simp [downloadSingle, h]
  · intro e he
    simp [downloadSingle, he]
  · intro hf
    cases h : downloadSingleBody url o env with
    | ok v =>
      obtain ⟨a, b, c, d⟩ := v
      simp [downloadSingle, h] at hf
    | error e => simp [downloadSingle, h]
  · intro hs
    cases h : downloadSingleBody url o env with
    | ok v =>
      obtain ⟨a, b, c, d⟩ := v
      simp [downloadSingle, h]
    | error e => simp [downloadSingle, h] at hs
  · intro m hm
    simp [downloadSingle, downloadSingleBody, hm]
  · intro m f hdir hf hfne hget
    simp [downloadSingle, downloadSingleBody, hdir, hget, truthyStr, hf, hfne]

/-- Witness for `downloadSingle_never_throws`: the fixture environment with
a failing GET and an explicit filename — the batch layer receives the
failure record with message "boom". -/
theorem downloadSingle_never_throws_witness :
    (downloadSingle "https://example.com/a.jpg"
        { filename := some "x.jpg" } envFixture).url = "https://example.com/a.jpg"
    ∧ downloadSingle "https://example.com/a.jpg" { filename := some "x.jpg" } envFixture =
        { success := false, url := "https://example.com/a.jpg", error := some "boom",
          downloadedAt := "2025-01-01T00:00:00.000Z" } :=
  ⟨(downloadSingle_never_throws "https://example.com/a.jpg"
      { filename := some "x.jpg" } envFixture).1,
   (downloadSingle_never_throws "https://example.com/a.jpg"
      { filename := some "x.jpg" } envFixture).2.2.2.2.2.2.2 "boom" "x.jpg"
      rfl rfl (by decide) rfl⟩

/-! ## Theorems: batch orchestrator (C1) -/

theorem foldl_store_eq (dl : Nat → DownloadResult) (order : List Nat)
    (acc : Nat → Option DownloadResult) (j : Nat) :
    (order.foldl (fun results index =>
      fun j' => if j' = index then some (dl index) else results j') acc) j
    = if j ∈ order then some (dl j) else acc j := by
  induction order generalizing acc with
  | nil => simp
  | cons i rest ih =>
    rw [List.foldl_cons, ih]
    by_cases hj : j ∈ rest
    · simp [hj]
    · by_cases hji : j = i
      · subst hji; simp [hj]
      · simp [hj, hji]

theorem storeByIndex_eq (dl : Nat → DownloadResult) (order : List Nat) (j : Nat) :
    storeByIndex dl order j = if j ∈ order then some (dl j) else none :=
  foldl_store_eq dl order (fun _ => none) j

/-- C1: whatever completion order the scheduler produces (any order covering
exactly the batch's indices, each completing once), `downloadBatch` returns
one result per input URL, stored at the item's original index: slot i holds
the `downloadSingle` result for `urls[i]`, whose `url` field is `urls[i]`. -/
theorem downloadBatch_preserves_order (urls : List String) (o : DownloadOptions)
    (envs : Nat → DownloadEnv) (order : List Nat) (i : Nat)
    (horder : ∀ j, j ∈ order ↔ j < urls.length) (hnodup : order.Nodup)
    (hi : i < urls.length) :
    (runBatch urls o envs order).length = urls.length
    ∧ (runBatch urls o envs order).getD i none
        = some (downloadSingle (urls.getD i "") o (envs i))
    ∧ (∀ r, (runBatch urls o envs order).getD i none = some r → r.url = urls.getD i "") := by
  have hmem : i ∈ order := (horder i).mpr hi
  have hslot : (runBatch urls o envs order).getD i none
      = some (downloadSingle (urls.getD i "") o (envs i)) := by
    rw [runBatch, List.getD_eq_getElem?_getD, List.getElem?_map, List.getElem?_range hi]
    simp [storeByIndex_eq, hmem]
  refine ⟨by simp [runBatch], hslot, ?_⟩
  intro r hr
  rw [hslot] at hr
  cases hr
  exact (downloadSingle_url_now _ o (envs i)).1

/-- Witness for `downloadBatch_preserves_order`: two URLs completing in the
order [1, 0]; slot 0 still holds item 0's result with its own url. -/
theorem downloadBatch_preserves_order_witness :
    (runBatch ["https://example.com/a.jpg", "https://example.com/page.html"]
        {} (fun _ => envFixture) [1, 0]).length = 2
    ∧ (runBatch ["https://example.com/a.jpg", "https://example.com/page.html"]
        {} (fun _ => envFixture) [1, 0]).getD 0 none
        = some (downloadSingle "https://example.com/a.jpg" {} (envFixture))
    ∧ (∀ r, (runBatch ["https://example.com/a.jpg", "https://example.com/page.html"]
        {} (fun _ => envFixture) [1, 0]).getD 0 none = some r →
          r.url = "https://example.com/a.jpg") := by
  have h := downloadBatch_preserves_order
    ["https://example.com/a.jpg", "https://example.com/page.html"] {}
    (fun _ => envFixture) [1, 0] 0
    (by intro j; simp; omega) (by decide) (by decide)
  exact ⟨h.1, h.2.1, h.2.2⟩

/-! ## Theorems: batch validation (C4) -/

/-- C4: whenever the batch arguments contain a URL the validator rejects,
the handler throws "Invalid URLs found: ..." listing the invalid URLs, and
never reaches `downloadBatch` — no item enters the pipeline (the success
branch is the only place a download is launched). -/
theorem batch_validation_fail_fast (args : BatchArgs) (cfg : DefaultConfig)
    (parse : String → Option UrlParts) (envs : Nat → DownloadEnv) (order : List Nat)
    (u : String) (hu : u ∈ args.urls) (hbad : validateImageUrl parse u = false) :
    handleDownloadImagesBatch args cfg parse envs order
      = .error ("Invalid URLs found: " ++ String.intercalate ", "
          (args.urls.filter (fun v => !validateImageUrl parse v)))
    ∧ (∀ res, handleDownloadImagesBatch args cfg parse envs order ≠ .ok res) := by
  have hmem : u ∈ args.urls.filter (fun v => !validateImageUrl parse v) :=
    List.mem_filter.mpr ⟨hu, by simp [hbad]⟩
  have hne : args.urls.filter (fun v => !validateImageUrl parse v) ≠ [] :=
    List.ne_nil_of_mem hmem
  have hmain : handleDownloadImagesBatch args cfg parse envs order
      = .error ("Invalid URLs found: " ++ String.intercalate ", "
          (args.urls.filter (fun v => !validateImageUrl parse v))) := by
    simp [handleDownloadImagesBatch, hne]
  refine ⟨hmain, ?_⟩
  intro res h
  rw [hmain] at h
  cases h

/-- Witness for `batch_validation_fail_fast`: a batch holding one image URL
and "https://example.com/page.html"; the handler throws listing the latter. -/
theorem batch_validation_fail_fast_witness :
    handleDownloadImagesBatch
        ⟨["https://example.com/a.jpg", "https://example.com/page.html"],
          none, none, none, none, none, none⟩ {} parseFixture (fun _ => envFixture) [0, 1]
      = .error "Invalid URLs found: https://example.com/page.html"
    ∧ (∀ res, handleDownloadImagesBatch
        ⟨["https://example.com/a.jpg", "https://example.com/page.html"],
          none, none, none, none, none, none⟩ {} parseFixture (fun _ => envFixture) [0, 1]
        ≠ .ok res) := by
  have h := batch_validation_fail_fast
    ⟨["https://example.com/a.jpg", "https://example.com/page.html"],
      none, none, none, none, none, none⟩ {} parseFixture (fun _ => envFixture) [0, 1]
    "https://example.com/page.html" (by decide) (by decide)
  exact ⟨h.1.trans (by rfl), h.2⟩

/-! ## Theorems: concurrency is not validated at batch launch (C6) -/

/-- C6 counterexample: a batch launched with concurrency 11 — outside the
spec's [1,10] — is not rejected: the handler reaches `downloadBatch`, which
runs with a semaphore of capacity 11. `validateDownloadOptions` would have
flagged exactly this value, but nothing on the launch path calls it. -/
theorem concurrency_not_validated_cex :
    (∃ res, handleDownloadImagesBatch
        ⟨["https://example.com/a.jpg"], none, none, none, none, none, some 11⟩ {}
        parseFixture (fun _ => envFixture) [0] = .ok res)
    ∧ downloadBatchConcurrency (handlerOptions
        ⟨["https://example.com/a.jpg"], none, none, none, none, none, some 11⟩ {}) = 11
    ∧ (downloadBatchSemaphore (handlerOptions
        ⟨["https://example.com/a.jpg"], none, none, none, none, none, some 11⟩ {})).max = 11
    ∧ (validateDownloadOptions { concurrency := some 11 }).isValid = false :=
  ⟨⟨_, rfl⟩, rfl, rfl, by decide⟩

/-- C6 amended: no concurrency validation happens at batch launch. The
handler forwards any supplied concurrency unchanged, `downloadBatch`
constructs its semaphore with that value, and the batch runs; the [1,10]
check exists only in the never-invoked `validateDownloadOptions` (whose
truthiness guard additionally skips the value 0). -/
theorem downloadBatch_runs_any_concurrency (args : BatchArgs) (cfg : DefaultConfig)
    (parse : String → Option UrlParts) (envs : Nat → DownloadEnv) (order : List Nat)
    (c : Int) (hc : args.concurrency = some c)
    (hvalid : args.urls.filter (fun u => !validateImageUrl parse u) = []) :
    downloadBatchConcurrency (handlerOptions args cfg) = c
    ∧ (downloadBatchSemaphore (handlerOptions args cfg)).max = c
    ∧ handleDownloadImagesBatch args cfg parse envs order
        = .ok (runBatch args.urls (toSingleOptions (handlerOptions args cfg)) envs order)
    ∧ ((validateDownloadOptions { concurrency := some c }).isValid = true
        ↔ (c = 0 ∨ (1 ≤ c ∧ c ≤ 10))) := by
  refine ⟨?_, ?_, ?_, ?_⟩
  · simp [downloadBatchConcurrency, handlerOptions, hc]
  · simp [downloadBatchSemaphore, Semaphore.mk', downloadBatchConcurrency, handlerOptions, hc]
  · simp [handleDownloadImagesBatch, hvalid]
  · simp only [validateDownloadOptions, truthyStr, truthyInt, Option.getD]
    by_cases h0 : c = 0
    · simp [h0]
    · by_cases h1 : 1 ≤ c
      · by_cases h2 : c ≤ 10
        · simp [h0, h1, h2]
        · simp [h0, h1, h2]
      · simp [h0, h1]

/-- Witness for `downloadBatch_runs_any_concurrency` at concurrency 11 with
one valid URL. -/
theorem downloadBatch_runs_any_concurrency_witness :
    downloadBatchConcurrency (handlerOptions
        ⟨["https://example.com/a.jpg"], none, none, none, none, none, some 11⟩ {}) = 11
    ∧ (downloadBatchSemaphore (handlerOptions
        ⟨["https://example.com/a.jpg"], none, none, none, none, none, some 11⟩ {})).max = 11
    ∧ handleDownloadImagesBatch
        ⟨["https://example.com/a.jpg"], none, none, none, none, none, some 11⟩ {}
        parseFixture (fun _ => envFixture) [0]
        = .ok (runBatch ["https://example.com/a.jpg"]
            (toSingleOptions (handlerOptions
              ⟨["https://example.com/a.jpg"], none, none, none, none, none, some 11⟩ {}))
            (fun _ => envFixture) [0])
    ∧ ((validateDownloadOptions { concurrency := some 11 }).isValid = true
        ↔ ((11 : Int) = 0 ∨ (1 ≤ (11 : Int) ∧ (11 : Int) ≤ 10))) :=
  downloadBatch_runs_any_concurrency
    ⟨["https://example.com/a.jpg"], none, none, none, none, none, some 11⟩ {}
    parseFixture (fun _ => envFixture) [0] 11 rfl (by decide)

/-! ## Theorems: stream vs file compression without a target format (C10) -/

/-- The options `downloadSingle` passes to the stream processor when only
`compress` is requested: no format, compress set, the given bounds, and the
destructuring default quality 80 unless supplied. -/
def compressOnlyOpts (mw mh : Option Int) (q : Int) : ProcessOptions :=
  { format := none, compress := true, maxWidth := mw, maxHeight := mh, quality := q }

/-- C10: with `compress` set and no target format, the streaming transformer
(`createTransformer`, used by `downloadSingle`'s processing path) re-encodes
as JPEG at the compression quality, while `processFile` in the same
situation re-encodes in the file's own metadata format — which for any
non-JPEG original is not a JPEG encode. -/
theorem createTransformer_compress_jpeg (q : Int) (mw mh : Option Int) (origFmt : String)
    (hfmt : origFmt ∈ ["png", "webp", "gif", "tiff"]) :
    createTransformer (compressOnlyOpts mw mh q)
      = .ok { (applyResize sharpInit (compressOnlyOpts mw mh q)) with
              encode := some (.jpeg q true) }
    ∧ (∃ s, processFile (compressOnlyOpts mw mh q) origFmt = .ok s
        ∧ s.resize = (applyResize sharpInit (compressOnlyOpts mw mh q)).resize
        ∧ isJpegEncode s.encode = false) := by
  constructor
  · simp [createTransformer, compressOnlyOpts, truthyStr, applyFormat, strToLower, charLower]
  · fin_cases hfmt <;>
      exact ⟨_, rfl, rfl, rfl⟩

/-- Witness for `createTransformer_compress_jpeg` at quality 70, maxWidth
100, original format "png". -/
theorem createTransformer_compress_jpeg_witness :
    createTransformer (compressOnlyOpts (some 100) none 70)
      = .ok { (applyResize sharpInit (compressOnlyOpts (some 100) none 70)) with
              encode := some (.jpeg 70 true) }
    ∧ (∃ s, processFile (compressOnlyOpts (some 100) none 70) "png" = .ok s
        ∧ s.resize = (applyResize sharpInit (compressOnlyOpts (some 100) none 70)).resize
        ∧ isJpegEncode s.encode = false) :=
  createTransformer_compress_jpeg 70 (some 100) none "png" (by decide)

end ImageDownloader
